import Mathlib

/-!
Shallow embedding of the alignment orchestration pipeline in
`src/seqan_align.cpp` (Unicycler's Seqan alignment core), together with
theorems settling the specification claims about it.

Sequences are modelled as `List Char`, names as `String`, C++ `double`
values as `ℚ` (the code only compares, adds and multiplies scores, which
the rationals model exactly), and C++ `int` values as `ℕ`/`ℤ` as
appropriate (none of the relevant arithmetic can overflow for the
magnitudes involved).  External collaborators — the k-mer index, the
candidate scorer, the line finder, the seed-chain builder and the Seqan
alignment primitives — are outside the source file and are passed in as
explicit function parameters, following the interfaces the specification
gives for them.  Line numbers in comments refer to `src/seqan_align.cpp`.
-/

namespace SeqanAlign

/-! ## Reverse complement (`getReverseComplement`, lines 414–447) -/

/-- One case of the `switch` statement in `getReverseComplement`
(lines 422–443): the complement pushed for a recognized symbol, or `none`
when the symbol matches no `case` label (the `switch` has no `default`
case, so nothing is pushed for such a symbol). -/
def complementChar (letter : Char) : Option Char :=
  match letter with
  | 'A' => some 'T'
  | 'T' => some 'A'
  | 'G' => some 'C'
  | 'C' => some 'G'
  | 'R' => some 'Y'
  | 'Y' => some 'R'
  | 'S' => some 'S'
  | 'W' => some 'W'
  | 'K' => some 'M'
  | 'M' => some 'K'
  | 'B' => some 'V'
  | 'D' => some 'H'
  | 'H' => some 'D'
  | 'V' => some 'B'
  | 'N' => some 'N'
  | '.' => some '.'
  | '-' => some '-'
  | '?' => some '?'
  | '*' => some '*'
  | _ => none

/-- Whether a symbol is one of the nineteen `case` labels of the switch. -/
def isRecognized (letter : Char) : Bool :=
  (complementChar letter).isSome

/-- The nineteen symbols handled by the switch table, in source order. -/
def recognizedChars : List Char :=
  ['A', 'T', 'G', 'C', 'R', 'Y', 'S', 'W', 'K', 'M', 'B', 'D', 'H', 'V',
   'N', '.', '-', '?', '*']

/-- The function `getReverseComplement` (lines 414–447): walk the input from its last
character down to its first and append the complement of each recognized
symbol; a symbol matching no case label contributes nothing. -/
def getReverseComplement (sequence : List Char) : List Char :=
  sequence.reverse.filterMap complementChar

/-! ## Data model -/

/-- An alignment result (the C++ `SemiGlobalAlignment` class, declared in
`seqan_align.h`): only the fields the orchestration logic in this file
inspects are modelled — the scaled score read at line 275 and the
serialized description read at lines 103, 372 and 399. -/
structure SemiGlobalAlignment where
  m_scaledScore : ℚ
  m_fullString : String
  deriving DecidableEq, Repr

/-- Modelled from the spec: the shared index (`KmerPositions`, an external
collaborator per §1/§6) maps sequence names to sequences; §6 gives it
`insert(name, sequence)`, `remove(name)` and `sequenceOf(name)` operations
keyed by the exact name.  An association list of name/sequence pairs. -/
abbrev KmerIndex : Type := List (String × List Char)

/-- Modelled from the spec: `insert(name, sequence)` (§6), the
`addPositions` operation of the shared index. -/
def addPositions (kmerPositions : KmerIndex) (name : String)
    (sequence : List Char) : KmerIndex :=
  kmerPositions ++ [(name, sequence)]

/-- Modelled from the spec: `remove(name)` (§6), the `deletePositions`
operation of the shared index — removes the entries carrying exactly the
given name. -/
def deletePositions (kmerPositions : KmerIndex) (name : String) :
    KmerIndex :=
  kmerPositions.filter (fun entry => entry.1 ≠ name)

/-- Whether the shared index contains an entry with the given name. -/
def hasName (kmerPositions : KmerIndex) (name : String) : Bool :=
  kmerPositions.any (fun entry => entry.1 = name)

/-- Modelled from the spec: `sequenceOf(name)` (§6), the `getSequence`
operation of the shared index.  The C++ returns a pointer; a missing name
(a null dereference in the C++) is modelled as the empty sequence. -/
def getSequence (kmerPositions : KmerIndex) (name : String) : List Char :=
  match kmerPositions.find? (fun entry => entry.1 = name) with
  | some entry => entry.2
  | none => []

/-! ## Shared-index lifecycle of `semiGlobalAlignmentAllRefs`
(lines 15–108) -/

/-- The shared-index effect of one invocation of
`semiGlobalAlignmentAllRefs`: the strand names are formed at lines 24–25,
the two strand entries are inserted at lines 33–35, nothing else inserts
or removes entries during the call, and the clean-up step at line 95
removes the entries named `readName` (not `posReadName`/`negReadName`). -/
def semiGlobalAlignmentAllRefsIndexEffect (readName : String)
    (readSeq : List Char) (kmerPositions : KmerIndex) : KmerIndex :=
  let posReadName := readName ++ "+"
  let negReadName := readName ++ "-"
  let posReadSeq := readSeq
  let negReadSeq := getReverseComplement posReadSeq
  let kmerPositions1 := addPositions kmerPositions posReadName posReadSeq
  let kmerPositions2 := addPositions kmerPositions1 negReadName negReadSeq
  deletePositions kmerPositions2 readName

/-- The return string of `semiGlobalAlignmentAllRefs` (lines 99–107):
every alignment's description followed by a semicolon, then the collected
console output — always a well-formed buffer, with failures visible only
as fewer alignment segments. -/
def semiGlobalAlignmentAllRefsReturnString
    (alignments : List SemiGlobalAlignment) (output : String) : String :=
  (alignments.foldl (fun acc alignment =>
    acc ++ alignment.m_fullString ++ ";") "") ++ output

/-! ## Sensitivity profiles and the escalation controller -/

/-- One sensitivity profile: the five per-level constants
(`LOW_SCORE_THRESHOLD_LEVEL_i`, `HIGH_SCORE_THRESHOLD_LEVEL_i`,
`MERGE_DISTANCE_LEVEL_i`, `MIN_ALIGNMENT_LENGTH_LEVEL_i`,
`MIN_POINT_COUNT_LEVEL_i`) read at lines 124–144. -/
structure SensitivityProfile where
  lowScoreThreshold : ℚ
  highScoreThreshold : ℚ
  mergeDistance : ℚ
  minAlignmentLength : ℚ
  minPointCount : ℤ
  deriving DecidableEq, Repr

/-- Modelled from the spec: the three per-level profiles live in
`settings.h`, which is not part of the source file; the spec (§3) fixes
their shape but not their numeric values, so they are threaded as
parameters. -/
structure LevelSettings where
  level1 : SensitivityProfile
  level2 : SensitivityProfile
  level3 : SensitivityProfile

/-- Profile selection at the top of `semiGlobalAlignmentAllRefsOneLevel`
(lines 121–144): levels 1 and 2 are selected by equality tests on
`sensitivityLevel`; any other value gets the level-3 profile. -/
def selectProfile (settings : LevelSettings) (sensitivityLevel : ℤ) :
    SensitivityProfile :=
  if sensitivityLevel = 1 then settings.level1
  else if sensitivityLevel = 2 then settings.level2
  else settings.level3

/-- The sensitivity levels passed to `semiGlobalAlignmentAllRefsOneLevel`
by one invocation of `semiGlobalAlignmentAllRefs`, in call order
(lines 69–91): the first call passes `1` (line 73); when
`needsMoreSensitiveAlignment` asks for escalation (line 77) the second
call also passes `1` (line 81); when `readHasUnalignedParts` asks for a
third pass (line 85) the third call also passes `1` (line 89).
`runOneLevel` abbreviates the per-level driver with all other arguments
fixed; the two coverage predicates are external collaborators. -/
def semiGlobalAlignmentAllRefsLevelsPassed
    (needsMoreSensitiveAlignment : List SemiGlobalAlignment → Bool)
    (readHasUnalignedParts : List SemiGlobalAlignment → Bool)
    (runOneLevel : ℤ → List SemiGlobalAlignment) : List ℤ :=
  let alignments := runOneLevel 1
  if needsMoreSensitiveAlignment alignments then
    let l2Alignments := runOneLevel 1
    let alignments2 := alignments ++ l2Alignments
    if readHasUnalignedParts alignments2 then [1, 1, 1] else [1, 1]
  else [1]

/-! ## The per-level driver (`semiGlobalAlignmentAllRefsOneLevel`,
lines 115–196) -/

/-- A scored query/reference pair (the C++ `CommonKmerSet` class, an
external collaborator): the fields read by the driver at lines 160–164. -/
structure CommonKmerSet where
  m_readName : String
  m_refName : String
  m_maxScore : ℚ
  deriving DecidableEq, Repr

/-- A candidate alignment band (the C++ `AlignmentLine` class, an external
collaborator): the trimmed reference bounds read at lines 258–259. -/
structure AlignmentLine where
  m_trimmedRefStart : ℕ
  m_trimmedRefEnd : ℕ
  deriving DecidableEq, Repr

/-- The per-level driver `semiGlobalAlignmentAllRefsOneLevel`
(lines 115–196).  The profile for
the requested sensitivity level is selected (lines 121–144) and its two
score thresholds are scaled by `maxScoreAllSets` (lines 146–149).  Then
for each common k-mer set, indexed by `i` (lines 155–193): a set whose max
score is below the high threshold is skipped (lines 160–161); otherwise
the line finder is invoked (lines 170–173) and, when it returns any lines,
the inner loop (lines 180–188) iterates `j` over the line list but reads
`alignmentLines[i]` — the OUTER index — at lines 181 and 183.  An `i`
outside the line list is an out-of-bounds read (undefined behaviour) in
the C++ and is modelled as skipping the iteration.  The external
collaborators are parameters: `findAlignmentLines` and `buildSeedChain`
as in §6 of the spec, and `alignOneLine` standing for
`semiGlobalAlignmentOneLine` (embedded separately below) applied to the
two sequences and a line. -/
def semiGlobalAlignmentAllRefsOneLevel
    (findAlignmentLines : CommonKmerSet → ℕ → ℕ → ℚ → ℚ → ℚ →
      List AlignmentLine)
    (buildSeedChain : AlignmentLine → ℤ → ℚ → Bool)
    (alignOneLine : List Char → List Char → AlignmentLine →
      Option SemiGlobalAlignment)
    (kmerPositions : KmerIndex) (settings : LevelSettings)
    (commonKmerSets : List CommonKmerSet)
    (sensitivityLevel : ℤ) (maxScoreAllSets : ℚ) :
    List SemiGlobalAlignment :=
  let profile := selectProfile settings sensitivityLevel
  let lowScoreThreshold := profile.lowScoreThreshold * maxScoreAllSets
  let highScoreThreshold := profile.highScoreThreshold * maxScoreAllSets
  (List.range commonKmerSets.length).foldl (fun alignments i =>
    match commonKmerSets.get? i with
    | none => alignments
    | some commonKmerSet =>
      if commonKmerSet.m_maxScore < highScoreThreshold then alignments
      else
        let readSeq := getSequence kmerPositions commonKmerSet.m_readName
        let refSeq := getSequence kmerPositions commonKmerSet.m_refName
        let alignmentLines := findAlignmentLines commonKmerSet
          readSeq.length refSeq.length lowScoreThreshold
          highScoreThreshold profile.mergeDistance
        if alignmentLines.length = 0 then alignments
        else
          (List.range alignmentLines.length).foldl (fun alignments2 _j =>
            match alignmentLines.get? i with
            | none => alignments2
            | some line =>
              if buildSeedChain line profile.minPointCount
                  profile.minAlignmentLength then
                match alignOneLine readSeq refSeq line with
                | some alignment => alignments2 ++ [alignment]
                | none => alignments2
              else alignments2) alignments) []

/-! ## The adaptive banded refinement loop
(`semiGlobalAlignmentOneLine`, lines 253–295, and
`semiGlobalAlignmentOneLineOneBand`, lines 304–345) -/

/-- The initial value of `bestAlignmentScore` at line 267:
`std::numeric_limits<double>::min()`, which is the smallest POSITIVE
normalized double, 2^(-1022) — not the most negative double. -/
def numericLimitsDoubleMin : ℚ := 1 / 2 ^ 1022

/-- The one-band routine `semiGlobalAlignmentOneLineOneBand`
(lines 304–345): the requested
band size is clamped to the shorter of the two sequence lengths
(lines 313–315) and the banded-chain alignment primitive is run at the
clamped width.  The `try`/`catch` at lines 328–342 turns any primitive
failure into a null result; accordingly the primitive is modelled as an
`Option`-valued parameter (with the line, scoring scheme and seed chain
fixed), and no failure escapes this function. -/
def semiGlobalAlignmentOneLineOneBand
    (bandedChainAlignment : ℕ → Option SemiGlobalAlignment)
    (readLen refLen : ℕ) (bandSize : ℕ) : Option SemiGlobalAlignment :=
  let shortestSeqLen := min readLen refLen
  let clampedBandSize :=
    if bandSize > shortestSeqLen then shortestSeqLen else bandSize
  bandedChainAlignment clampedBandSize

/-- The band-doubling loop of `semiGlobalAlignmentOneLine`
(lines 271–290), from a current band size, best alignment and best score.
`oneBand` is `semiGlobalAlignmentOneLineOneBand` with everything but the
band size fixed.  Each iteration attempts the current band size; a
successful alignment that does not improve on the best score is deleted
and ends the loop (lines 276–278); an improving one replaces the best
(lines 281–284); then the band size is doubled and the loop ends if the
doubled size exceeds the ceiling (lines 287–289).  A zero band size would
loop forever in the C++ (doubling never moves it); the model returns the
current best there, and every theorem below assumes the starting band
size is positive. -/
def semiGlobalAlignmentOneLineLoop
    (oneBand : ℕ → Option SemiGlobalAlignment) (maxBandSize : ℕ)
    (bandSize : ℕ) (bestAlignment : Option SemiGlobalAlignment)
    (bestAlignmentScore : ℚ) : Option SemiGlobalAlignment :=
  if bandSize = 0 then bestAlignment
  else
    match oneBand bandSize with
    | some alignment =>
      if alignment.m_scaledScore ≤ bestAlignmentScore then bestAlignment
      else
        if bandSize * 2 > maxBandSize then some alignment
        else
          semiGlobalAlignmentOneLineLoop oneBand maxBandSize
            (bandSize * 2) (some alignment) alignment.m_scaledScore
    | none =>
      if bandSize * 2 > maxBandSize then bestAlignment
      else
        semiGlobalAlignmentOneLineLoop oneBand maxBandSize (bandSize * 2)
          bestAlignment bestAlignmentScore
termination_by maxBandSize + 1 - bandSize
decreasing_by all_goals (simp_wf; omega)

/-- The refinement entry `semiGlobalAlignmentOneLine` (lines 253–295):
run the loop starting at
the fixed initial band size (`STARTING_BAND_SIZE`, line 265) with no best
alignment and best score `std::numeric_limits<double>::min()`
(lines 266–267).  The starting band size and the ceiling
(`MAX_BAND_SIZE`) live in `settings.h`, outside the source file, and are
threaded as parameters. -/
def semiGlobalAlignmentOneLine
    (oneBand : ℕ → Option SemiGlobalAlignment)
    (startingBandSize maxBandSize : ℕ) : Option SemiGlobalAlignment :=
  semiGlobalAlignmentOneLineLoop oneBand maxBandSize startingBandSize
    none numericLimitsDoubleMin

/-- The band sizes at which the loop of `semiGlobalAlignmentOneLine` calls
`semiGlobalAlignmentOneLineOneBand`, in order: the same control structure
as `semiGlobalAlignmentOneLineLoop`, recording the band size of each
attempt instead of the best alignment (the best-alignment argument is
dropped because it never influences which widths are attempted). -/
def semiGlobalAlignmentOneLineAttempts
    (oneBand : ℕ → Option SemiGlobalAlignment) (maxBandSize : ℕ)
    (bandSize : ℕ) (bestAlignmentScore : ℚ) : List ℕ :=
  if bandSize = 0 then []
  else
    match oneBand bandSize with
    | some alignment =>
      if alignment.m_scaledScore ≤ bestAlignmentScore then [bandSize]
      else
        if bandSize * 2 > maxBandSize then [bandSize]
        else
          bandSize :: semiGlobalAlignmentOneLineAttempts oneBand
            maxBandSize (bandSize * 2) alignment.m_scaledScore
    | none =>
      if bandSize * 2 > maxBandSize then [bandSize]
      else
        bandSize :: semiGlobalAlignmentOneLineAttempts oneBand maxBandSize
          (bandSize * 2) bestAlignmentScore
termination_by maxBandSize + 1 - bandSize
decreasing_by all_goals (simp_wf; omega)

/-- The best score held by the loop just before the attempt at width
`startingBandSize * 2 ^ t`, assuming no earlier attempt ended the loop:
initially `std::numeric_limits<double>::min()`, and raised to each
successful attempt's score whenever that score improves on it. -/
def bestScoreBefore (oneBand : ℕ → Option SemiGlobalAlignment)
    (startingBandSize : ℕ) : ℕ → ℚ
  | 0 => numericLimitsDoubleMin
  | t + 1 =>
    match oneBand (startingBandSize * 2 ^ t) with
    | some alignment =>
      max (bestScoreBefore oneBand startingBandSize t)
        alignment.m_scaledScore
    | none => bestScoreBefore oneBand startingBandSize t

/-- The loop's two stopping conditions at attempt `t` (width
`startingBandSize * 2 ^ t`): a successful alignment that does not improve
on the best score so far, or a doubled width that would exceed the
ceiling. -/
def stopsAt (oneBand : ℕ → Option SemiGlobalAlignment)
    (startingBandSize maxBandSize : ℕ) (t : ℕ) : Prop :=
  (∃ alignment, oneBand (startingBandSize * 2 ^ t) = some alignment ∧
    alignment.m_scaledScore ≤ bestScoreBefore oneBand startingBandSize t)
  ∨ startingBandSize * 2 ^ (t + 1) > maxBandSize

/-! ## Boundary-extension alignments (`startExtensionAlignment`,
lines 352–373, and `endExtensionAlignment`, lines 379–400) -/

/-- The four boolean template arguments of a Seqan `AlignConfig`, in
source order. -/
structure AlignConfig where
  top : Bool
  left : Bool
  right : Bool
  bottom : Bool
  deriving DecidableEq, Repr

/-- The configuration `AlignConfig<false, true, false, false>`
constructed by
`startExtensionAlignment` (line 368). -/
def startExtensionAlignConfig : AlignConfig :=
  ⟨false, true, false, false⟩

/-- The configuration `AlignConfig<false, false, true, false>`
constructed by
`endExtensionAlignment` (line 395). -/
def endExtensionAlignConfig : AlignConfig :=
  ⟨false, false, true, false⟩

/-- Which sequence ends have free (unpenalized) end gaps.  In both
extension functions the read is the horizontal sequence (`row 0`,
lines 358/363 and 385/390) and the reference the vertical sequence
(`row 1`, lines 359/364 and 386/391). -/
structure FreeEndGaps where
  readStart : Bool
  readEnd : Bool
  refStart : Bool
  refEnd : Bool
  deriving DecidableEq, Repr

/-- Modelled from the spec: the exact global alignment primitive and its
`AlignConfig` are external (§1; §6 `runGlobal(seqA, seqB, scoring,
endGapConfig)`).  The meaning of the four slots — with the read horizontal
and the reference vertical — is taken from §4.5 of the spec together with
the source's own comments (lines 367 and 394): the second slot frees gaps
at the start of the vertical (reference) sequence and the third slot
gaps at its end; the first and fourth slots govern the horizontal (read)
sequence's start and end. -/
def freeEndGaps (config : AlignConfig) : FreeEndGaps :=
  { readStart := config.top
    readEnd := config.bottom
    refStart := config.left
    refEnd := config.right }

/-- The function `startExtensionAlignment` (lines 352–373): one call of
the exact
global alignment primitive under `AlignConfig<false, true, false, false>`
(lines 368–369), whose single result is serialized (line 372) and
returned.  `globalAlignment` is the external primitive with the two
sequences and the scoring scheme fixed; it is total here because the
extension paths have no `try`/`catch` and no failure handling. -/
def startExtensionAlignment
    (globalAlignment : AlignConfig → SemiGlobalAlignment) : String :=
  (globalAlignment startExtensionAlignConfig).m_fullString

/-- The function `endExtensionAlignment` (lines 379–400): one call of
the exact global
alignment primitive under `AlignConfig<false, false, true, false>`
(lines 395–396), whose single result is serialized (line 399) and
returned. -/
def endExtensionAlignment
    (globalAlignment : AlignConfig → SemiGlobalAlignment) : String :=
  (globalAlignment endExtensionAlignConfig).m_fullString

/-! ## Concrete instances used to exhibit the defects -/

/-- A first alignment line, with trimmed reference bounds 0–10. -/
def exampleLine0 : AlignmentLine := ⟨0, 10⟩

/-- A second alignment line, with trimmed reference bounds 20–30. -/
def exampleLine1 : AlignmentLine := ⟨20, 30⟩

/-- A low-scoring candidate, skipped by the high-threshold check. -/
def exampleKmerSet0 : CommonKmerSet := ⟨"read+", "refA", 1⟩

/-- A high-scoring candidate, which reaches line finding. -/
def exampleKmerSet1 : CommonKmerSet := ⟨"read+", "refB", 9⟩

/-- Concrete level settings: level 1 has high-score threshold 2, so
`exampleKmerSet0` is skipped and `exampleKmerSet1` is processed. -/
def exampleSettings : LevelSettings :=
  ⟨⟨1, 2, 100, 40, 16⟩, ⟨1, 2, 200, 20, 8⟩, ⟨1, 2, 300, 10, 4⟩⟩

/-- A line finder returning two lines for the high-scoring candidate's
reference and none otherwise. -/
def exampleFindLines (commonKmerSet : CommonKmerSet) (_readLen : ℕ)
    (_refLen : ℕ) (_low : ℚ) (_high : ℚ) (_merge : ℚ) :
    List AlignmentLine :=
  if commonKmerSet.m_refName = "refB" then [exampleLine0, exampleLine1]
  else []

/-- A per-line aligner tagging its result with the line's trimmed
reference start, so the produced alignments identify which line was
aligned. -/
def exampleAlignOneLine (_readSeq : List Char) (_refSeq : List Char)
    (line : AlignmentLine) : Option SemiGlobalAlignment :=
  some ⟨(line.m_trimmedRefStart : ℚ), ""⟩

/-! ## Lemmas about the reverse complement -/

/-- A symbol is recognized exactly when it is one of the nineteen case
labels. -/
lemma isRecognized_iff_mem (c : Char) :
    isRecognized c = true ↔ c ∈ recognizedChars := by
  constructor
  · intro h
    unfold isRecognized complementChar at h
    split at h <;> simp_all [recognizedChars]
  · intro h
    fin_cases h <;> decide

/-- The complement table is involutive on its domain. -/
lemma complementChar_involutive {c d : Char}
    (h : complementChar c = some d) : complementChar d = some c := by
  revert h
  unfold complementChar
  split <;> intro h <;> (try cases h) <;> rfl

lemma getReverseComplement_append (a b : List Char) :
    getReverseComplement (a ++ b) =
      getReverseComplement b ++ getReverseComplement a := by
  simp [getReverseComplement, List.filterMap_append]

lemma getReverseComplement_cons (c : Char) (t : List Char) :
    getReverseComplement (c :: t) =
      getReverseComplement t ++ (complementChar c).toList := by
  have h : c :: t = [c] ++ t := rfl
  rw [h, getReverseComplement_append]
  cases hc : complementChar c <;>
    simp [getReverseComplement, hc, Option.toList]

lemma length_getReverseComplement_le (s : List Char) :
    (getReverseComplement s).length ≤ s.length := by
  induction s with
  | nil => simp [getReverseComplement]
  | cons c t ih =>
    rw [getReverseComplement_cons, List.length_append, List.length_cons]
    have hone : (complementChar c).toList.length ≤ 1 := by
      cases complementChar c <;> simp [Option.toList]
    omega

lemma length_getReverseComplement_eq_iff (s : List Char) :
    (getReverseComplement s).length = s.length ↔
      ∀ c ∈ s, isRecognized c := by
  induction s with
  | nil => simp [getReverseComplement]
  | cons c t ih =>
    rw [getReverseComplement_cons]
    cases hc : complementChar c with
    | some d =>
      have hrec : isRecognized c = true := by
        simp [isRecognized, hc]
      have hkey :
          (getReverseComplement t ++ (some d : Option Char).toList).length
            = (getReverseComplement t).length + 1 := by simp
      rw [hkey, List.length_cons]
      constructor
      · intro h x hx
        rcases List.mem_cons.mp hx with rfl | hxt
        · exact hrec
        · refine (ih.mp ?_) x hxt
          omega
      · intro h
        have h2 : (getReverseComplement t).length = t.length :=
          ih.mpr (fun x hx => h x (List.mem_cons_of_mem _ hx))
        omega
    | none =>
      have hlen := length_getReverseComplement_le t
      have hrec : isRecognized c = false := by
        simp [isRecognized, hc]
      constructor
      · intro h
        have h2 : (getReverseComplement t).length = t.length + 1 := by
          simpa using h
        exact absurd h2 (by omega)
      · intro h
        have hcontra := h c (List.mem_cons_self c t)
        rw [hrec] at hcontra
        exact absurd hcontra (by decide)

/-! ## Claim theorems -/

/-- C1.  The claim states that the level-2 rerun of the per-level driver
selects the level-2 threshold profile and the level-3 rerun the level-3
profile.  In the source both reruns pass sensitivity level `1` (lines 81
and 89), and `selectProfile` maps level `1` to the level-1 profile, so
every stage of the escalation runs with the level-1 constants: with both
escalation predicates firing, the levels passed to the driver are
`[1, 1, 1]`. -/
theorem C1_reruns_reuse_level_one_profile :
    semiGlobalAlignmentAllRefsLevelsPassed (fun _ => true) (fun _ => true)
      (fun _ => []) = [1, 1, 1] ∧
    (∀ settings : LevelSettings,
      selectProfile settings 1 = settings.level1) := by
  constructor
  · rfl
  · intro settings
    rfl

/-- C2.  The claim states that the j-th inner iteration of the per-level
driver operates on the j-th alignment line of the current candidate's
list.  In the source the inner loop indexes the line list with the OUTER
candidate index `i` (lines 181 and 183): for a candidate at outer index 1
whose line finder returns two lines, both inner iterations build and
align line 1 (trimmed reference start 20) and line 0 (trimmed reference
start 0) is never attempted, so the driver's output is two copies of the
line-1 alignment rather than one alignment per line. -/
theorem C2_inner_loop_indexes_with_outer_index :
    semiGlobalAlignmentAllRefsOneLevel exampleFindLines
        (fun _ _ _ => true) exampleAlignOneLine [] exampleSettings
        [exampleKmerSet0, exampleKmerSet1] 1 1
      = [⟨20, ""⟩, ⟨20, ""⟩] ∧
    semiGlobalAlignmentAllRefsOneLevel exampleFindLines
        (fun _ _ _ => true) exampleAlignOneLine [] exampleSettings
        [exampleKmerSet0, exampleKmerSet1] 1 1
      ≠ [⟨0, ""⟩, ⟨20, ""⟩] := by
  constructor
  · norm_num [semiGlobalAlignmentAllRefsOneLevel, exampleFindLines,
      exampleAlignOneLine, exampleSettings, exampleKmerSet0,
      exampleKmerSet1, exampleLine0, exampleLine1, selectProfile,
      getSequence, List.range_succ]
    decide
  · norm_num [semiGlobalAlignmentAllRefsOneLevel, exampleFindLines,
      exampleAlignOneLine, exampleSettings, exampleKmerSet0,
      exampleKmerSet1, exampleLine0, exampleLine1, selectProfile,
      getSequence, List.range_succ]
    decide

/-- C3.  The claim states that after any invocation of
`semiGlobalAlignmentAllRefs` the shared index contains no entry named
`queryName + "+"` or `queryName + "-"`.  The clean-up at line 95 removes
the entries named `readName` instead of the two strand names inserted at
lines 34–35, so both strand entries are still present after the call (and
the reference entry is untouched): evaluated for query name `"read"`,
query sequence `"A"` and an index holding one reference `"ref"`. -/
theorem C3_strand_entries_survive_cleanup :
    hasName (semiGlobalAlignmentAllRefsIndexEffect "read" ['A']
      [("ref", ['A', 'C'])]) "read+" = true ∧
    hasName (semiGlobalAlignmentAllRefsIndexEffect "read" ['A']
      [("ref", ['A', 'C'])]) "read-" = true ∧
    hasName (semiGlobalAlignmentAllRefsIndexEffect "read" ['A']
      [("ref", ['A', 'C'])]) "ref" = true := by
  refine ⟨rfl, rfl, rfl⟩

/-- Helper for C5: the output length equals the number of recognized
symbols in the input. -/
lemma length_filterMap_complementChar (s : List Char) :
    (s.filterMap complementChar).length
      = (s.filter (fun c => isRecognized c)).length := by
  induction s with
  | nil => rfl
  | cons c t ih =>
    cases hc : complementChar c <;>
      simp [List.filterMap_cons, List.filter_cons, isRecognized, hc, ih]

/-- C5 (counterexample).  The claim states that `getReverseComplement`
passes every unrecognized symbol through unchanged, so that the output
always has exactly the same length as the input.  The switch in the
source has no `default` case, so an unrecognized symbol — here the
lowercase `'a'` — contributes nothing: the output of the one-character
input is empty. -/
theorem C5_counterexample_lowercase_dropped :
    (getReverseComplement ['a']).length ≠ (['a'] : List Char).length := by
  decide

/-- C5 (amended).  `getReverseComplement` reverses the input and maps
each recognized symbol to its complement through the switch table, and
DROPS every symbol outside the table rather than passing it through: the
output is the reverse of the complemented recognized symbols, and its
length is the number of recognized symbols in the input. -/
theorem C5_recognized_mapped_unrecognized_dropped (s : List Char) :
    getReverseComplement s = (s.filterMap complementChar).reverse ∧
    (getReverseComplement s).length
      = (s.filter (fun c => isRecognized c)).length := by
  constructor
  · exact (List.filterMap_reverse complementChar s)
  · rw [getReverseComplement, List.filterMap_reverse,
      List.length_reverse]
    exact length_filterMap_complementChar s

/-- C6.  Reverse complement is an involution on sequences composed only
of symbols the complement table recognizes (the IUPAC codes and the
placeholder symbols): applying `getReverseComplement` twice returns the
original sequence. -/
theorem C6_reverse_complement_involution (s : List Char)
    (h : ∀ c ∈ s, isRecognized c) :
    getReverseComplement (getReverseComplement s) = s := by
  induction s with
  | nil => rfl
  | cons c t ih =>
    obtain ⟨d, hd⟩ := Option.isSome_iff_exists.mp
      (show (complementChar c).isSome = true from
        h c (List.mem_cons_self c t))
    have h1 : getReverseComplement [d] = [c] := by
      show ([d] : List Char).reverse.filterMap complementChar = [c]
      simp [complementChar_involutive hd]
    calc getReverseComplement (getReverseComplement (c :: t))
        = getReverseComplement (getReverseComplement t ++ [d]) := by
          rw [getReverseComplement_cons, hd]
          rfl
      _ = getReverseComplement [d]
            ++ getReverseComplement (getReverseComplement t) :=
          getReverseComplement_append _ _
      _ = [c] ++ t := by
          rw [h1, ih (fun x hx => h x (List.mem_cons_of_mem _ hx))]
      _ = c :: t := rfl

/-- Witness for C6 at a concrete sequence containing nucleotides, an
ambiguity code and a placeholder symbol. -/
theorem C6_reverse_complement_involution_witness :
    getReverseComplement
      (getReverseComplement ['A', 'C', 'G', 'T', 'N', '-'])
      = ['A', 'C', 'G', 'T', 'N', '-'] :=
  C6_reverse_complement_involution ['A', 'C', 'G', 'T', 'N', '-']
    (by decide)

/-- C7.  `startExtensionAlignment` runs one exact global alignment whose
end-gap configuration (`AlignConfig<false, true, false, false>`,
line 368) frees gaps only at the beginning of the reference sequence,
`endExtensionAlignment` one whose configuration
(`AlignConfig<false, false, true, false>`, line 395) frees gaps only at
the end of the reference sequence — every other sequence end is fully
penalized in both — and each returns exactly the one serialized
description of that single alignment. -/
theorem C7_extension_end_gap_asymmetry :
    freeEndGaps startExtensionAlignConfig
      = ⟨false, false, true, false⟩ ∧
    freeEndGaps endExtensionAlignConfig
      = ⟨false, false, false, true⟩ ∧
    (∀ globalAlignment, startExtensionAlignment globalAlignment
      = (globalAlignment startExtensionAlignConfig).m_fullString) ∧
    (∀ globalAlignment, endExtensionAlignment globalAlignment
      = (globalAlignment endExtensionAlignConfig).m_fullString) := by
  refine ⟨rfl, rfl, fun _ => rfl, fun _ => rfl⟩

/-- C10.  For every input, the reverse complement is no longer than the
input; it has equal length exactly when every input symbol is recognized
by the switch table; and the recognized symbols are precisely the
nineteen case labels, so any other symbol (lowercase letters included)
shortens the output. -/
theorem C10_length_le_eq_iff_recognized (s : List Char) :
    (getReverseComplement s).length ≤ s.length ∧
    ((getReverseComplement s).length = s.length ↔
      ∀ c ∈ s, isRecognized c) ∧
    (∀ c : Char, isRecognized c = true ↔ c ∈ recognizedChars) :=
  ⟨length_getReverseComplement_le s,
    length_getReverseComplement_eq_iff s,
    isRecognized_iff_mem⟩

/-! ## Lemmas about the adaptive banded refinement loop -/

/-- Once a best alignment is held, the loop never returns null: the best
pointer is only ever replaced by another alignment. -/
lemma oneLineLoop_isSome (oneBand : ℕ → Option SemiGlobalAlignment)
    (maxBandSize : ℕ) :
    ∀ bandSize bestAlignment bestAlignmentScore,
      bestAlignment.isSome = true →
      (semiGlobalAlignmentOneLineLoop oneBand maxBandSize bandSize
        bestAlignment bestAlignmentScore).isSome = true := by
  intro bandSize bestAlignment bestAlignmentScore
  induction bandSize, bestAlignment, bestAlignmentScore
    using semiGlobalAlignmentOneLineLoop.induct oneBand maxBandSize with
  | case1 best score =>
    intro h
    rw [semiGlobalAlignmentOneLineLoop]
    simpa using h
  | case2 bandSize best score h0 a ha hle =>
    intro h
    rw [semiGlobalAlignmentOneLineLoop]
    simpa [h0, ha, hle] using h
  | case3 bandSize best score h0 a ha hgt hmax =>
    intro h
    rw [semiGlobalAlignmentOneLineLoop]
    simp [h0, ha, hgt, hmax]
  | case4 bandSize best score h0 a ha hgt hmax ih =>
    intro h
    rw [semiGlobalAlignmentOneLineLoop]
    simpa [h0, ha, hgt, hmax] using ih rfl
  | case5 bandSize best score h0 ha hmax =>
    intro h
    rw [semiGlobalAlignmentOneLineLoop]
    simpa [h0, ha, hmax] using h
  | case6 bandSize best score h0 ha hmax ih =>
    intro h
    rw [semiGlobalAlignmentOneLineLoop]
    simpa [h0, ha, hmax] using ih h

/-- Any alignment the loop returns either is the best alignment it
started with or was produced by some attempt whose score strictly
improved on the score the loop started with. -/
lemma oneLineLoop_some_from_attempt
    (oneBand : ℕ → Option SemiGlobalAlignment) (maxBandSize : ℕ) :
    ∀ bandSize bestAlignment bestAlignmentScore a,
      semiGlobalAlignmentOneLineLoop oneBand maxBandSize bandSize
        bestAlignment bestAlignmentScore = some a →
      bestAlignment = some a ∨
        ∃ w, oneBand w = some a ∧ bestAlignmentScore < a.m_scaledScore := by
  intro bandSize bestAlignment bestAlignmentScore
  induction bandSize, bestAlignment, bestAlignmentScore
    using semiGlobalAlignmentOneLineLoop.induct oneBand maxBandSize with
  | case1 best score =>
    intro a h
    rw [semiGlobalAlignmentOneLineLoop] at h
    simp at h
    exact Or.inl h
  | case2 bandSize best score h0 a' ha hle =>
    intro a h
    rw [semiGlobalAlignmentOneLineLoop] at h
    simp [h0, ha, hle] at h
    exact Or.inl h
  | case3 bandSize best score h0 a' ha hgt hmax =>
    intro a h
    rw [semiGlobalAlignmentOneLineLoop] at h
    simp [h0, ha, hgt, hmax] at h
    exact Or.inr ⟨bandSize, h ▸ ha, h ▸ lt_of_not_le hgt⟩
  | case4 bandSize best score h0 a' ha hgt hmax ih =>
    intro a h
    rw [semiGlobalAlignmentOneLineLoop] at h
    simp only [h0, ha, if_neg hgt, if_neg hmax, ite_false] at h
    rcases ih a h with heq | ⟨w, hw, hlt⟩
    · cases heq
      exact Or.inr ⟨bandSize, ha, lt_of_not_le hgt⟩
    · exact Or.inr ⟨w, hw, lt_trans (lt_of_not_le hgt) hlt⟩
  | case5 bandSize best score h0 ha hmax =>
    intro a h
    rw [semiGlobalAlignmentOneLineLoop] at h
    simp [h0, ha, hmax] at h
    exact Or.inl h
  | case6 bandSize best score h0 ha hmax ih =>
    intro a h
    rw [semiGlobalAlignmentOneLineLoop] at h
    simp only [h0, ha, if_neg hmax, ite_false] at h
    exact ih a h

/-- When the loop (started with no best alignment) returns null, every
attempted band width either failed outright or produced an alignment
whose score did not exceed the score the loop started with. -/
lemma oneLineLoop_none_attempts
    (oneBand : ℕ → Option SemiGlobalAlignment) (maxBandSize : ℕ) :
    ∀ (bandSize : ℕ) (_bestAlignment : Option SemiGlobalAlignment)
      (bestAlignmentScore : ℚ),
      semiGlobalAlignmentOneLineLoop oneBand maxBandSize bandSize none
        bestAlignmentScore = none →
      ∀ w ∈ semiGlobalAlignmentOneLineAttempts oneBand maxBandSize
        bandSize bestAlignmentScore,
        oneBand w = none ∨
          ∃ a, oneBand w = some a ∧
            a.m_scaledScore ≤ bestAlignmentScore := by
  intro bandSize bestAlignment bestAlignmentScore
  induction bandSize, bestAlignment, bestAlignmentScore
    using semiGlobalAlignmentOneLineLoop.induct oneBand maxBandSize with
  | case1 best score =>
    intro h w hw
    rw [semiGlobalAlignmentOneLineAttempts] at hw
    simp at hw
  | case2 bandSize best score h0 a ha hle =>
    intro _ w hw
    rw [semiGlobalAlignmentOneLineAttempts] at hw
    simp [h0, ha, hle] at hw
    subst hw
    exact Or.inr ⟨a, ha, hle⟩
  | case3 bandSize best score h0 a ha hgt hmax =>
    intro h w hw
    rw [semiGlobalAlignmentOneLineLoop] at h
    simp [h0, ha, hgt, hmax] at h
  | case4 bandSize best score h0 a ha hgt hmax ih =>
    intro h w hw
    rw [semiGlobalAlignmentOneLineLoop] at h
    simp only [h0, ha, if_neg hgt, if_neg hmax, ite_false] at h
    have := oneLineLoop_isSome oneBand maxBandSize (bandSize * 2)
      (some a) a.m_scaledScore rfl
    rw [h] at this
    cases this
  | case5 bandSize best score h0 ha hmax =>
    intro _ w hw
    rw [semiGlobalAlignmentOneLineAttempts] at hw
    simp [h0, ha, hmax] at hw
    subst hw
    exact Or.inl ha
  | case6 bandSize best score h0 ha hmax ih =>
    intro h w hw
    rw [semiGlobalAlignmentOneLineLoop] at h
    simp only [h0, ha, if_neg hmax, ite_false] at h
    rw [semiGlobalAlignmentOneLineAttempts] at hw
    simp only [h0, ha, if_neg hmax, ite_false, List.mem_cons] at hw
    rcases hw with rfl | hw
    · exact Or.inl ha
    · exact ih h w hw

/-- A failed attempt at a width whose doubling stays within the ceiling
simply hands the loop on to the doubled width, with the best alignment
and best score unchanged. -/
lemma oneLineLoop_failure_continues
    (oneBand : ℕ → Option SemiGlobalAlignment)
    (maxBandSize bandSize : ℕ)
    (bestAlignment : Option SemiGlobalAlignment)
    (bestAlignmentScore : ℚ)
    (hfail : oneBand bandSize = none) (h0 : bandSize ≠ 0)
    (hle : bandSize * 2 ≤ maxBandSize) :
    semiGlobalAlignmentOneLineLoop oneBand maxBandSize bandSize
      bestAlignment bestAlignmentScore
      = semiGlobalAlignmentOneLineLoop oneBand maxBandSize (bandSize * 2)
        bestAlignment bestAlignmentScore := by
  rw [semiGlobalAlignmentOneLineLoop]
  simp [h0, hfail, Nat.not_lt.mpr hle]

/-- The attempted widths from step `t` onward (width
`startingBandSize * 2 ^ t`, best score as accumulated so far) are the
doubling sequence running up to the first stopping step, inclusive.  The
parameter `f` is an upper bound on the number of doublings still
possible, used as the induction fuel. -/
lemma attempts_eq_doubling_range
    (oneBand : ℕ → Option SemiGlobalAlignment)
    (startingBandSize maxBandSize : ℕ) (hS : 0 < startingBandSize) :
    ∀ (f t : ℕ), startingBandSize * 2 ^ t ≤ maxBandSize →
      maxBandSize < startingBandSize * 2 ^ (t + f) →
      ∃ k, t ≤ k ∧
        semiGlobalAlignmentOneLineAttempts oneBand maxBandSize
          (startingBandSize * 2 ^ t)
          (bestScoreBefore oneBand startingBandSize t)
          = (List.range' t (k + 1 - t)).map
              (fun u => startingBandSize * 2 ^ u) ∧
        (∀ u, t ≤ u → u < k →
          ¬ stopsAt oneBand startingBandSize maxBandSize u) ∧
        stopsAt oneBand startingBandSize maxBandSize k := by
  intro f
  induction f with
  | zero =>
    intro t h1 h2
    rw [Nat.add_zero] at h2
    omega
  | succ f ih =>
    intro t h1 h2
    have hw0 : startingBandSize * 2 ^ t ≠ 0 := by positivity
    have hdouble : startingBandSize * 2 ^ t * 2
        = startingBandSize * 2 ^ (t + 1) := by ring
    have hone : t + 1 - t = 1 := by omega
    by_cases hstop : stopsAt oneBand startingBandSize maxBandSize t
    · refine ⟨t, le_refl t, ?_, by omega, hstop⟩
      rw [hone, List.range'_one, List.map_singleton]
      rw [semiGlobalAlignmentOneLineAttempts]
      unfold stopsAt at hstop
      rcases hstop with ⟨a, ha, hle⟩ | hgt
      · simp [hw0, ha, hle]
      · rw [← hdouble] at hgt
        cases h3 : oneBand (startingBandSize * 2 ^ t) with
        | some a => simp [hw0, h3, hgt]
        | none => simp [hw0, h3, hgt]
    · have hnA : ¬ ∃ a, oneBand (startingBandSize * 2 ^ t) = some a ∧
          a.m_scaledScore ≤ bestScoreBefore oneBand startingBandSize t :=
        fun hc => hstop (Or.inl hc)
      have hnB : startingBandSize * 2 ^ (t + 1) ≤ maxBandSize := by
        by_contra hc
        exact hstop (Or.inr (Nat.lt_of_not_le hc))
      have h2' : maxBandSize < startingBandSize * 2 ^ ((t + 1) + f) := by
        have hexp : (t + 1) + f = t + (f + 1) := by omega
        rw [hexp]
        exact h2
      obtain ⟨k, hk, hatt, hnostop, hstopk⟩ := ih (t + 1) hnB h2'
      refine ⟨k, by omega, ?_, ?_, hstopk⟩
      · rw [semiGlobalAlignmentOneLineAttempts]
        have hsplit : k + 1 - t = (k - t) + 1 := by omega
        have htail : k + 1 - (t + 1) = k - t := by omega
        cases h3 : oneBand (startingBandSize * 2 ^ t) with
        | some a =>
          have hgt2 : ¬ a.m_scaledScore
              ≤ bestScoreBefore oneBand startingBandSize t :=
            fun hc => hnA ⟨a, h3, hc⟩
          have hbest : bestScoreBefore oneBand startingBandSize (t + 1)
              = a.m_scaledScore := by
            simp only [bestScoreBefore, h3]
            exact max_eq_right (le_of_lt (lt_of_not_le hgt2))
          rw [hbest, htail] at hatt
          simp only [hw0, if_neg, h3, if_neg hgt2, hdouble,
            Nat.not_lt.mpr hnB, ite_false, hatt]
          rw [hsplit, List.range'_succ, List.map_cons]
        | none =>
          have hbest : bestScoreBefore oneBand startingBandSize (t + 1)
              = bestScoreBefore oneBand startingBandSize t := by
            simp only [bestScoreBefore, h3]
          rw [hbest, htail] at hatt
          simp only [hw0, h3, hdouble, Nat.not_lt.mpr hnB, ite_false,
            hatt]
          rw [hsplit, List.range'_succ, List.map_cons]
      · intro u hu1 hu2
        rcases Nat.eq_or_lt_of_le hu1 with rfl | hlt
        · exact hstop
        · exact hnostop u hlt hu2

/-- The band size handed to the alignment primitive is the requested one
clamped to the shorter of the two sequence lengths (lines 313–315). -/
lemma oneLineOneBand_eq_clamped
    (bandedChainAlignment : ℕ → Option SemiGlobalAlignment)
    (readLen refLen bandSize : ℕ) :
    semiGlobalAlignmentOneLineOneBand bandedChainAlignment readLen refLen
      bandSize
      = bandedChainAlignment (min bandSize (min readLen refLen)) := by
  simp only [semiGlobalAlignmentOneLineOneBand]
  congr 1
  rcases Nat.lt_or_ge (min readLen refLen) bandSize with h | h
  · rw [if_pos h]
    omega
  · rw [if_neg (Nat.not_lt.mpr h)]
    omega

/-- When every width up to step `j` fails and the attempt at step `j`
succeeds with a score not above the initial best score, the loop (from
any step `t ≤ j`) ends at step `j` returning null, having attempted
exactly the widths of steps `t` through `j`. -/
lemma loop_none_of_failures_then_nonimproving
    (oneBand : ℕ → Option SemiGlobalAlignment)
    (startingBandSize maxBandSize j : ℕ) (a : SemiGlobalAlignment)
    (hreach : ∀ u, u ≤ j →
      startingBandSize * 2 ^ u ≤ maxBandSize)
    (hfail : ∀ t, t < j → oneBand (startingBandSize * 2 ^ t) = none)
    (hsucc : oneBand (startingBandSize * 2 ^ j) = some a)
    (hscore : a.m_scaledScore ≤ numericLimitsDoubleMin)
    (hS : 0 < startingBandSize) :
    ∀ d t, t + d = j →
      semiGlobalAlignmentOneLineLoop oneBand maxBandSize
        (startingBandSize * 2 ^ t) none numericLimitsDoubleMin = none ∧
      semiGlobalAlignmentOneLineAttempts oneBand maxBandSize
        (startingBandSize * 2 ^ t) numericLimitsDoubleMin
        = (List.range' t (j + 1 - t)).map
            (fun u => startingBandSize * 2 ^ u) := by
  intro d
  induction d with
  | zero =>
    intro t ht
    have htj : t = j := by omega
    subst htj
    have hw0 : startingBandSize * 2 ^ t ≠ 0 := by positivity
    have hone : t + 1 - t = 1 := by omega
    constructor
    · rw [semiGlobalAlignmentOneLineLoop]
      simp [hw0, hsucc, hscore]
    · rw [semiGlobalAlignmentOneLineAttempts]
      rw [hone, List.range'_one, List.map_singleton]
      simp [hw0, hsucc, hscore]
  | succ d ih =>
    intro t ht
    have htj : t < j := by omega
    have hw0 : startingBandSize * 2 ^ t ≠ 0 := by positivity
    have hf : oneBand (startingBandSize * 2 ^ t) = none := hfail t htj
    have hle : startingBandSize * 2 ^ (t + 1) ≤ maxBandSize :=
      hreach (t + 1) (by omega)
    have hdouble : startingBandSize * 2 ^ t * 2
        = startingBandSize * 2 ^ (t + 1) := by ring
    obtain ⟨ihl, iha⟩ := ih (t + 1) (by omega)
    constructor
    · rw [semiGlobalAlignmentOneLineLoop]
      simp only [hw0, hf, hdouble, Nat.not_lt.mpr hle, ite_false,
        if_neg]
      exact ihl
    · rw [semiGlobalAlignmentOneLineAttempts]
      simp only [hw0, hf, hdouble, Nat.not_lt.mpr hle, ite_false,
        if_neg]
      rw [iha]
      have hsplit : j + 1 - t = (j - t) + 1 := by omega
      have htail : j + 1 - (t + 1) = j - t := by omega
      rw [htail, hsplit, List.range'_succ, List.map_cons]

/-- C4.  For a fixed alignment line, the widths attempted by the
refinement loop are `S, 2S, 4S, ...` for the fixed starting band size
`S`: a doubling sequence running up to the first stopping step, which is
the first width whose successful result fails to improve on the best
score so far, or the first width whose doubling would exceed the fixed
ceiling, whichever comes first; every attempted width stays within the
ceiling; and every width handed to the one-band primitive is clamped to
the shorter of the two sequence lengths. -/
theorem C4_band_width_doubling
    (oneBand : ℕ → Option SemiGlobalAlignment)
    (startingBandSize maxBandSize : ℕ)
    (hS : 0 < startingBandSize)
    (hmax : startingBandSize ≤ maxBandSize) :
    (∀ bandedChainAlignment readLen refLen bandSize,
      semiGlobalAlignmentOneLineOneBand bandedChainAlignment readLen
        refLen bandSize
        = bandedChainAlignment (min bandSize (min readLen refLen))) ∧
    ∃ k,
      semiGlobalAlignmentOneLineAttempts oneBand maxBandSize
        startingBandSize numericLimitsDoubleMin
        = (List.range (k + 1)).map (fun t => startingBandSize * 2 ^ t) ∧
      (∀ t, t ≤ k → startingBandSize * 2 ^ t ≤ maxBandSize) ∧
      (∀ t, t < k →
        ¬ stopsAt oneBand startingBandSize maxBandSize t) ∧
      stopsAt oneBand startingBandSize maxBandSize k := by
  constructor
  · exact oneLineOneBand_eq_clamped
  · have h1 : startingBandSize * 2 ^ 0 ≤ maxBandSize := by simpa using hmax
    have h2 : maxBandSize
        < startingBandSize * 2 ^ (0 + (maxBandSize + 1)) := by
      calc maxBandSize < 2 ^ maxBandSize := Nat.lt_two_pow maxBandSize
        _ ≤ 2 ^ (0 + (maxBandSize + 1)) :=
          Nat.pow_le_pow_right (by omega) (by omega)
        _ ≤ startingBandSize * 2 ^ (0 + (maxBandSize + 1)) :=
          Nat.le_mul_of_pos_left _ hS
    obtain ⟨k, hk, hatt, hnostop, hstopk⟩ :=
      attempts_eq_doubling_range oneBand startingBandSize maxBandSize hS
        (maxBandSize + 1) 0 h1 h2
    have e1 : startingBandSize * 2 ^ 0 = startingBandSize := by ring
    have e2 : bestScoreBefore oneBand startingBandSize 0
        = numericLimitsDoubleMin := rfl
    rw [e1, e2] at hatt
    refine ⟨k, ?_, ?_, fun t ht => hnostop t (Nat.zero_le t) ht, hstopk⟩
    · rw [hatt, List.range_eq_range', Nat.sub_zero]
    · intro t ht
      rcases Nat.eq_zero_or_pos t with rfl | hpos
      · simpa using hmax
      · have hlt : t - 1 < k := by omega
        have hns := hnostop (t - 1) (Nat.zero_le _) hlt
        unfold stopsAt at hns
        push_neg at hns
        have h3 := hns.2
        have ht1 : t - 1 + 1 = t := by omega
        rw [ht1] at h3
        exact h3

/-- Witness for C4: starting band size 1, ceiling 2, every attempt
failing. -/
theorem C4_band_width_doubling_witness :
    (∀ bandedChainAlignment readLen refLen bandSize,
      semiGlobalAlignmentOneLineOneBand bandedChainAlignment readLen
        refLen bandSize
        = bandedChainAlignment (min bandSize (min readLen refLen))) ∧
    ∃ k,
      semiGlobalAlignmentOneLineAttempts
        (fun _ => (none : Option SemiGlobalAlignment)) 2 1
        numericLimitsDoubleMin
        = (List.range (k + 1)).map (fun t => 1 * 2 ^ t) ∧
      (∀ t, t ≤ k → 1 * 2 ^ t ≤ 2) ∧
      (∀ t, t < k →
        ¬ stopsAt (fun _ => (none : Option SemiGlobalAlignment)) 1 2 t) ∧
      stopsAt (fun _ => (none : Option SemiGlobalAlignment)) 1 2 k :=
  C4_band_width_doubling (fun _ => none) 1 2 (by decide) (by decide)

/-- C8.  A failure of the banded alignment primitive never escapes: the
one-band routine returns null exactly when the primitive fails at the
clamped width (the catch turns the exception into null, lines 338–342);
a failed width whose doubling stays within the ceiling simply hands the
loop on to the doubled width with the best alignment unchanged; when the
refinement returns no alignment, every attempted width either failed or
produced a score not above the loop's initial best score; and the
zero-alignment return string is still a proper buffer holding just the
console output. -/
theorem C8_failures_degrade_gracefully :
    (∀ bandedChainAlignment readLen refLen bandSize,
      (semiGlobalAlignmentOneLineOneBand bandedChainAlignment readLen
          refLen bandSize = none
        ↔ bandedChainAlignment (min bandSize (min readLen refLen))
            = none)) ∧
    (∀ (oneBand : ℕ → Option SemiGlobalAlignment)
      (maxBandSize bandSize : ℕ)
      (bestAlignment : Option SemiGlobalAlignment)
      (bestAlignmentScore : ℚ),
      oneBand bandSize = none → bandSize ≠ 0 →
      bandSize * 2 ≤ maxBandSize →
      semiGlobalAlignmentOneLineLoop oneBand maxBandSize bandSize
        bestAlignment bestAlignmentScore
        = semiGlobalAlignmentOneLineLoop oneBand maxBandSize
          (bandSize * 2) bestAlignment bestAlignmentScore) ∧
    (∀ (oneBand : ℕ → Option SemiGlobalAlignment)
      (startingBandSize maxBandSize : ℕ),
      semiGlobalAlignmentOneLine oneBand startingBandSize maxBandSize
        = none →
      ∀ w ∈ semiGlobalAlignmentOneLineAttempts oneBand maxBandSize
        startingBandSize numericLimitsDoubleMin,
        oneBand w = none ∨
          ∃ a, oneBand w = some a ∧
            a.m_scaledScore ≤ numericLimitsDoubleMin) ∧
    (∀ output, semiGlobalAlignmentAllRefsReturnString [] output
      = output) := by
  refine ⟨?_, ?_, ?_, ?_⟩
  · intro bandedChainAlignment readLen refLen bandSize
    rw [oneLineOneBand_eq_clamped]
  · intro oneBand maxBandSize bandSize bestAlignment bestAlignmentScore
      hfail h0 hle
    exact oneLineLoop_failure_continues oneBand maxBandSize bandSize
      bestAlignment bestAlignmentScore hfail h0 hle
  · intro oneBand startingBandSize maxBandSize h
    rw [semiGlobalAlignmentOneLine] at h
    exact oneLineLoop_none_attempts oneBand maxBandSize startingBandSize
      none numericLimitsDoubleMin h
  · intro output
    simp [semiGlobalAlignmentAllRefsReturnString]

/-- C9.  The best-score accumulator starts at
`std::numeric_limits<double>::min()`, the smallest POSITIVE double, so
the refinement returns an alignment only when some attempted band
produced a score strictly above that positive value; in particular, when
every width before step `j` fails and the attempt at step `j` succeeds
with a scaled score at most zero, that result is discarded, the loop
ends right there (no larger band is tried) and the refinement returns
null. -/
theorem C9_positive_min_double_init
    (oneBand : ℕ → Option SemiGlobalAlignment)
    (startingBandSize maxBandSize j : ℕ) (a : SemiGlobalAlignment)
    (hS : 0 < startingBandSize)
    (hreach : ∀ u, u ≤ j → startingBandSize * 2 ^ u ≤ maxBandSize)
    (hfail : ∀ t, t < j → oneBand (startingBandSize * 2 ^ t) = none)
    (hsucc : oneBand (startingBandSize * 2 ^ j) = some a)
    (hscore : a.m_scaledScore ≤ 0) :
    0 < numericLimitsDoubleMin ∧
    semiGlobalAlignmentOneLine oneBand startingBandSize maxBandSize
      = none ∧
    semiGlobalAlignmentOneLineAttempts oneBand maxBandSize
      startingBandSize numericLimitsDoubleMin
      = (List.range (j + 1)).map (fun t => startingBandSize * 2 ^ t) ∧
    (∀ (oneBand2 : ℕ → Option SemiGlobalAlignment) (s2 m2 : ℕ)
      (b : SemiGlobalAlignment),
      semiGlobalAlignmentOneLine oneBand2 s2 m2 = some b →
      ∃ w, oneBand2 w = some b ∧
        numericLimitsDoubleMin < b.m_scaledScore) := by
  have hpos : 0 < numericLimitsDoubleMin := by
    unfold numericLimitsDoubleMin
    positivity
  have hscore2 : a.m_scaledScore ≤ numericLimitsDoubleMin :=
    le_trans hscore (le_of_lt hpos)
  obtain ⟨hl, ha⟩ := loop_none_of_failures_then_nonimproving oneBand
    startingBandSize maxBandSize j a hreach hfail hsucc hscore2 hS j 0
    (by omega)
  have e1 : startingBandSize * 2 ^ 0 = startingBandSize := by ring
  rw [e1] at hl ha
  refine ⟨hpos, ?_, ?_, ?_⟩
  · rw [semiGlobalAlignmentOneLine]
    exact hl
  · rw [ha, List.range_eq_range', Nat.sub_zero]
  · intro oneBand2 s2 m2 b hb
    rw [semiGlobalAlignmentOneLine] at hb
    rcases oneLineLoop_some_from_attempt oneBand2 m2 s2 none
      numericLimitsDoubleMin b hb with h | ⟨w, hw, hlt⟩
    · cases h
    · exact ⟨w, hw, hlt⟩

/-- Witness for C9: starting band size 1, ceiling 8; the width-1 attempt
fails, the width-2 attempt succeeds with scaled score 0, so the loop
stops there, never tries width 4, and returns null. -/
theorem C9_positive_min_double_init_witness :
    0 < numericLimitsDoubleMin ∧
    semiGlobalAlignmentOneLine
      (fun w => if w = 1 then none
        else some ⟨0, ""⟩) 1 8 = none ∧
    semiGlobalAlignmentOneLineAttempts
      (fun w => if w = 1 then none
        else some ⟨0, ""⟩) 8 1 numericLimitsDoubleMin
      = (List.range (1 + 1)).map (fun t => 1 * 2 ^ t) ∧
    (∀ (oneBand2 : ℕ → Option SemiGlobalAlignment) (s2 m2 : ℕ)
      (b : SemiGlobalAlignment),
      semiGlobalAlignmentOneLine oneBand2 s2 m2 = some b →
      ∃ w, oneBand2 w = some b ∧
        numericLimitsDoubleMin < b.m_scaledScore) :=
  C9_positive_min_double_init
    (fun w => if w = 1 then none else some ⟨0, ""⟩) 1 8 1 ⟨0, ""⟩
    (by decide) (by decide) (by decide) (by decide) (by decide)

end SeqanAlign
